import Mathlib

/-!
Verification of the NeuroShellOS semantic-interpreter prototype
(`sample.py`) against its natural-language specification.

The development shallowly embeds the interpreter core: the lexical
normalizer, the entity-reference extractor, the keyword intent
classifier, the label extractor, the entity/capability model, the
registry, and the intent executor.  Strings are modelled as `List Char`;
the Python regular expressions used by the source are modelled by
explicit recursive scanners with the same matching semantics.
-/

set_option maxRecDepth 4096

/-- Characters of a string literal, the string representation used throughout. -/
def s2l (s : String) : List Char := s.data

/-- Python `str.strip()` / regex `\s` whitespace set (ASCII part). -/
def pyIsSpace (c : Char) : Bool :=
  c = ' ' || c = '\t' || c = '\n' || c = '\r' || c = '\x0b' || c = '\x0c'

/-- Python `str.lower()` on ASCII letters. -/
def toLowerC (c : Char) : Char :=
  if 'A' ≤ c ∧ c ≤ 'Z' then Char.ofNat (c.toNat + 32) else c

/-- ASCII upper-casing, used by Python `str.capitalize()`. -/
def toUpperC (c : Char) : Char :=
  if 'a' ≤ c ∧ c ≤ 'z' then Char.ofNat (c.toNat - 32) else c

/-- Python `str.strip()`: whitespace removed from both ends. -/
def pyStrip (l : List Char) : List Char :=
  ((l.dropWhile pyIsSpace).reverse.dropWhile pyIsSpace).reverse

/-- Python `str.capitalize()`: first character upper-cased, the rest lower-cased. -/
def pyCapitalize : List Char → List Char
  | [] => []
  | c :: rest => toUpperC c :: rest.map toLowerC

/-- Python `str.split()` (no argument): tokens separated by whitespace runs. -/
def pySplitAux : List Char → List Char → List (List Char)
  | [], acc => if acc = [] then [] else [acc.reverse]
  | c :: rest, acc =>
    if pyIsSpace c then
      if acc = [] then pySplitAux rest [] else acc.reverse :: pySplitAux rest []
    else pySplitAux rest (c :: acc)

def pySplit (l : List Char) : List (List Char) := pySplitAux l []

/-- `raw_text.split()[-1]`; the source only evaluates this on non-blank text,
so the default for blank input is never reached through the pipeline. -/
def lastToken (l : List Char) : List Char := (pySplit l).getLastD []

/-- `pat` is a prefix of `l` (Python `str.startswith`). -/
def isPre : List Char → List Char → Bool
  | [], _ => true
  | _ :: _, [] => false
  | a :: as, b :: bs => a = b && isPre as bs

/-- `pat` occurs as a contiguous substring of `l` (Python `in`). -/
def hasSub (pat : List Char) : List Char → Bool
  | [] => isPre pat []
  | c :: rest => isPre pat (c :: rest) || hasSub pat rest

/-- Case-insensitive prefix test: `pat` is already lower-case, the text is
lower-cased character-wise (regex flag `re.I`). -/
def isPreCI : List Char → List Char → Bool
  | [], _ => true
  | _ :: _, [] => false
  | a :: as, b :: bs => a = toLowerC b && isPreCI as bs

/-- Python `str.replace(pat, "")`, all non-overlapping occurrences, left to
right.  The counter skips over the remaining characters of a match, keeping
the recursion structural.  The source only calls this with a 9-character id
as `pat`, never empty. -/
def replaceAllAux : Nat → List Char → List Char → List Char
  | _, [], _ => []
  | skip + 1, _ :: rest, pat => replaceAllAux skip rest pat
  | 0, c :: rest, pat =>
    if !pat.isEmpty && isPre pat (c :: rest) then
      replaceAllAux (pat.length - 1) rest pat
    else c :: replaceAllAux 0 rest pat

def replaceAll (l pat : List Char) : List Char := replaceAllAux 0 l pat

/-- Value of a digit string (`int(...)` on a `\d+` match). -/
def digitsVal (ds : List Char) : Nat :=
  ds.foldl (fun a c => a * 10 + (c.toNat - 48)) 0

/-- Regex `\w`: word characters (ASCII part), for `\b` boundaries. -/
def isWordC (c : Char) : Bool := c.isAlpha || c.isDigit || c = '_'

/-- `re.search(r"\b(\d+)\b", l)`: the first maximal digit run bounded by
non-word characters (or the ends of the string).  The boolean argument
records whether the preceding character is a word character. -/
def firstIntTokenAux : Bool → List Char → Option Nat
  | _, [] => none
  | prevWord, c :: rest =>
    if !prevWord && c.isDigit then
      match rest.dropWhile Char.isDigit with
      | [] => some (digitsVal (c :: rest.takeWhile Char.isDigit))
      | d :: _ =>
        if isWordC d then firstIntTokenAux (isWordC c) rest
        else some (digitsVal (c :: rest.takeWhile Char.isDigit))
    else firstIntTokenAux (isWordC c) rest

def firstIntToken (l : List Char) : Option Nat := firstIntTokenAux false l

/-- Match of the id pattern `node-[a-f0-9]{4}` at the head of the list. -/
def isHexLower (c : Char) : Bool := c.isDigit || ('a' ≤ c && c ≤ 'f')

def matchIdAt : List Char → Option (List Char)
  | 'n' :: 'o' :: 'd' :: 'e' :: '-' :: a :: b :: c :: d :: _ =>
    if isHexLower a && isHexLower b && isHexLower c && isHexLower d then
      some ['n', 'o', 'd', 'e', '-', a, b, c, d]
    else none
  | _ => none

/-- `re.search(SDK_SCHEMA["constraints"]["id_format"], l)`: leftmost match. -/
def searchId : List Char → Option (List Char)
  | [] => none
  | c :: rest =>
    match matchIdAt (c :: rest) with
    | some m => some m
    | none => searchId rest

/-- `re.sub(id_format, "", l)`: every non-overlapping match removed.  The
counter skips the remaining 8 characters of a 9-character match. -/
def subIdAllAux : Nat → List Char → List Char
  | _, [] => []
  | skip + 1, _ :: rest => subIdAllAux skip rest
  | 0, c :: rest =>
    if (matchIdAt (c :: rest)).isSome then subIdAllAux 8 rest
    else c :: subIdAllAux 0 rest

def subIdAll (l : List Char) : List Char := subIdAllAux 0 l

/-- A quote character, single or double. -/
def isQuote (c : Char) : Bool := c = '\x27' || c = '\x22'

/-- After an opening quote: the characters up to the next quote character,
failing on a newline (regex `.` does not match `\n`) or the end of input. -/
def quoteGroup : List Char → Option (List Char)
  | [] => none
  | c :: rest =>
    if isQuote c then some []
    else if c = '\n' then none
    else (quoteGroup rest).map (fun g => c :: g)

/-- `re.findall(r"['\"](.*?)['\"]", l)`: all group-1 matches, scanning
leftmost-first and resuming after each match end.  The counter skips over
the group and its closing quote, keeping the recursion structural. -/
def findallQuotedAux : Nat → List Char → List (List Char)
  | _, [] => []
  | skip + 1, _ :: rest => findallQuotedAux skip rest
  | 0, c :: rest =>
    if isQuote c then
      match quoteGroup rest with
      | some g => g :: findallQuotedAux (g.length + 1) rest
      | none => findallQuotedAux 0 rest
    else findallQuotedAux 0 rest

def findallQuoted (l : List Char) : List (List Char) := findallQuotedAux 0 l

/-- The five alternatives of `(?:called|named|item|for|to)`, in regex order. -/
def connWords : List (List Char) :=
  [s2l "called", s2l "named", s2l "item", s2l "for", s2l "to"]

/-- Attempt of one alternative at the current position: the (case-insensitive)
word must occur here followed by at least one whitespace character (`\s+`,
greedy); group 1 (`(.*)`) is the rest of the line after the whitespace run. -/
def connTry (w l : List Char) : Option (List Char) :=
  if isPreCI w l then
    match l.drop w.length with
    | c :: rest =>
      if pyIsSpace c then
        some (((c :: rest).dropWhile pyIsSpace).takeWhile (fun x => x ≠ '\n'))
      else none
    | [] => none
  else none

/-- All five alternatives at one position.  Their first characters are
pairwise distinct, so at most one can match at a given position. -/
def connAt (l : List Char) : Option (List Char) :=
  (connTry (s2l "called") l).orElse fun _ =>
    (connTry (s2l "named") l).orElse fun _ =>
      (connTry (s2l "item") l).orElse fun _ =>
        (connTry (s2l "for") l).orElse fun _ => connTry (s2l "to") l

/-- `re.search(r"(?:called|named|item|for|to)\s+(.*)", l, re.I)`:
group 1 of the leftmost match. -/
def connSearch : List Char → Option (List Char)
  | [] => none
  | c :: rest =>
    match connAt (c :: rest) with
    | some g => some g
    | none => connSearch rest

/-! ## Schema constants (`SDK_SCHEMA["constraints"]`) -/

def metricRangeMin : Int := 0
def metricRangeMax : Int := 100
def maxDataItems : Nat := 50
def maxLabelLength : Nat := 32

/-! ## Entity model

One record holds the state of every variant; the kind-specific fields
(`value`, `items`, `active`) exist in the Python object only for the
variant that introduces them, and are given inert defaults here.  Which
interactions may touch them is governed by `capabilities`, exactly as in
the source. -/

structure Entity where
  eid : List Char
  role : List Char
  title : List Char
  color : List Char
  capabilities : List (List Char)
  value : Int
  items : List (List Char)
  active : Bool
deriving DecidableEq

/-- `BaseSemanticElement.__init__`: the title is clamped to the maximum
label length and the base capability list is `["color_change"]`. -/
def mkBase (eid role title : List Char) : Entity :=
  { eid := eid, role := role, title := title.take maxLabelLength,
    color := s2l "primary", capabilities := [s2l "color_change"],
    value := 0, items := [], active := false }

/-- `MetricElement.__init__`: appends `numeric_update`, state gains `value = 0`. -/
def mkMetric (eid role title : List Char) : Entity :=
  let b := mkBase eid role title
  { b with capabilities := b.capabilities ++ [s2l "numeric_update"] }

/-- `DataViewElement.__init__`: appends `list_append`, state gains `items = []`. -/
def mkData (eid role title : List Char) : Entity :=
  let b := mkBase eid role title
  { b with capabilities := b.capabilities ++ [s2l "list_append"] }

/-- `StatusElement.__init__`: appends `toggle_status`, state gains `active = False`. -/
def mkStatus (eid role title : List Char) : Entity :=
  let b := mkBase eid role title
  { b with capabilities := b.capabilities ++ [s2l "toggle_status"] }

/-- `MetricElement.update_view`: clamp into the configured range and store. -/
def metricUpd (e : Entity) (v : Int) : Entity :=
  { e with value := max metricRangeMin (min metricRangeMax v) }

/-- `DataViewElement.update_view`: append the new item when it is truthy
(Python: `if new_item:`), then keep only the last `max_data_items` entries. -/
def dataUpdateView (items : List (List Char)) (newItem : Option (List Char)) :
    List (List Char) :=
  let items2 :=
    match newItem with
    | some s => if s.isEmpty then items else items ++ [s]
    | none => items
  if items2.length > maxDataItems then items2.drop (items2.length - maxDataItems)
  else items2

/-! ## Registry

`self.registry` is a Python dict from id to entity; an association list
preserves its key-insertion order.  `setReg` is dict assignment
(`d[k] = v`): overwrite in place when the key exists, append otherwise. -/

abbrev Registry := List (List Char × Entity)

def lookupReg : Registry → List Char → Option Entity
  | [], _ => none
  | (k0, v0) :: rest, k => if k0 = k then some v0 else lookupReg rest k

def setReg : Registry → List Char → Entity → Registry
  | [], k, v => [(k, v)]
  | (k0, v0) :: rest, k, v =>
    if k0 = k then (k, v) :: rest else (k0, v0) :: setReg rest k v

def regKeys (r : Registry) : List (List Char) := r.map Prod.fst

/-! ## Log events and result messages (`sys_log`) -/

def colGreen : List Char := s2l "#10B981"
def colRed : List Char := s2l "#EF4444"

structure LogEvent where
  msg : List Char
  color : List Char
deriving DecidableEq

def notFoundMsg (t : List Char) : List Char :=
  s2l "Error: Node \x27" ++ t ++ s2l "\x27 not found."

def mismatchMsg : List Char := s2l "Interpreter: Semantic Mismatch."

def createdMsg (role eid : List Char) : List Char :=
  s2l "Created " ++ role ++ s2l " (" ++ eid ++ s2l ")"

def setValueMsg (t : List Char) (v : Int) : List Char :=
  s2l "Set " ++ t ++ s2l " to " ++ s2l (toString v) ++ s2l "%"

def toggledMsg (t : List Char) : List Char := s2l "Toggled " ++ t

def loggedMsg (t : List Char) : List Char := s2l "Logged data to " ++ t

def capMetricMsg (t : List Char) : List Char :=
  s2l "Capability Error: " ++ t ++ s2l " is not a metric."

def capListMsg (t : List Char) : List Char :=
  s2l "Capability Error: " ++ t ++ s2l " is not a data list."

/-! ## Intent tags (string-valued, as in the source) -/

def iCreateBase : List Char := s2l "CREATE_BASE"
def iCreateMetric : List Char := s2l "CREATE_METRIC"
def iCreateData : List Char := s2l "CREATE_DATA"
def iCreateStatus : List Char := s2l "CREATE_STATUS"
def iInteractToggle : List Char := s2l "INTERACT_TOGGLE"
def iInteractAppend : List Char := s2l "INTERACT_APPEND"
def iInteractNumeric : List Char := s2l "INTERACT_NUMERIC"
def iUnknown : List Char := s2l "unknown"
def createPre : List Char := s2l "CREATE_"

/-! ## Intent classifier (`process_intent`, disambiguation block) -/

/-- Lines 180–196 of the source: two-phase keyword classification over the
lower-cased text; the target id is consulted only for its presence
(Python truthiness of `target_id`). -/
def classifyIntent (text : List Char) (targetId : Option (List Char)) : List Char :=
  let isExplicitInteract :=
    [s2l "toggle", s2l "switch", s2l "set node", s2l "update node"].any
      (fun w => hasSub w text)
  let isAppendInteract :=
    hasSub (s2l "add item") text || hasSub (s2l "add to") text ||
      hasSub (s2l "log") text || hasSub (s2l "append") text
  let intent1 :=
    if targetId.isSome &&
        (isExplicitInteract || isAppendInteract || hasSub (s2l "node-") text) then
      if [s2l "toggle", s2l "switch"].any (fun w => hasSub w text) then
        iInteractToggle
      else if [s2l "append", s2l "item", s2l "put", s2l "insert", s2l "log",
          s2l "add to"].any (fun w => hasSub w text) then
        iInteractAppend
      else if [s2l "update", s2l "set", s2l "push", s2l "change"].any
          (fun w => hasSub w text) then
        iInteractNumeric
      else iUnknown
    else iUnknown
  if intent1 = iUnknown &&
      [s2l "add", s2l "new", s2l "create", s2l "make"].any (fun w => hasSub w text) then
    if [s2l "progress", s2l "bar", s2l "percent"].any (fun w => hasSub w text) then
      iCreateMetric
    else if [s2l "data", s2l "list", s2l "view", s2l "logs"].any
        (fun w => hasSub w text) then
      iCreateData
    else if [s2l "status", s2l "indicator", s2l "light", s2l "toggle"].any
        (fun w => hasSub w text) then
      iCreateStatus
    else iCreateBase
  else intent1

/-! ## Label extractor (`process_intent`, lines 198–203) -/

/-- `quoted[0] if quoted else ""`, the connective-word fallback, the
capitalized last token, and the final id-pattern strip, on the original
(non-lower-cased) raw text. -/
def extractLabel (raw : List Char) : List Char :=
  let label0 := (findallQuoted raw).headD []
  let label1 :=
    if label0 = [] then
      match connSearch raw with
      | some g => pyStrip g
      | none => pyCapitalize (lastToken raw)
    else label0
  pyStrip (subIdAll label1)

/-! ## Intent executor (`execute_intent`) -/

structure ExecResult where
  registry : Registry
  success : Bool
  logs : List LogEvent
deriving DecidableEq

/-- Lines 211–240: the branch bodies, entered only after the not-found
guard.  Each outcome folds in the final `sys_log` call of lines 239–240
(an empty failure message becomes the generic semantic mismatch).  The
interaction branches read `self.registry[tid]`; the inner `none` cases
are unreachable through `process_intent` (the guard has already resolved
the id) and stand in for Python's `KeyError`. -/
def executeBody (reg : Registry) (intent : List Char) (tid : Option (List Char))
    (label raw uuid : List Char) : ExecResult :=
  if isPre createPre intent then
    let eid := s2l "node-" ++ uuid.take 4
    let el :=
      if intent = iCreateMetric then mkMetric eid (s2l "metric_display") label
      else if intent = iCreateData then mkData eid (s2l "data_view") label
      else if intent = iCreateStatus then mkStatus eid (s2l "status_indicator") label
      else mkBase eid (s2l "primary_action") label
    ⟨setReg reg eid el, true, [⟨createdMsg el.role eid, colGreen⟩]⟩
  else if intent = iInteractNumeric then
    match tid with
    | none => ⟨reg, false, [⟨mismatchMsg, colRed⟩]⟩
    | some t =>
      match lookupReg reg t with
      | none => ⟨reg, false, [⟨mismatchMsg, colRed⟩]⟩
      | some e =>
        if s2l "numeric_update" ∈ e.capabilities then
          match firstIntToken (replaceAll raw t) with
          | some n =>
            let e2 := metricUpd e (n : Int)
            ⟨setReg reg t e2, true, [⟨setValueMsg t e2.value, colGreen⟩]⟩
          | none => ⟨reg, false, [⟨mismatchMsg, colRed⟩]⟩
        else ⟨reg, false, [⟨capMetricMsg t, colRed⟩]⟩
  else if intent = iInteractToggle then
    match tid with
    | none => ⟨reg, false, [⟨mismatchMsg, colRed⟩]⟩
    | some t =>
      match lookupReg reg t with
      | none => ⟨reg, false, [⟨mismatchMsg, colRed⟩]⟩
      | some e =>
        if s2l "toggle_status" ∈ e.capabilities then
          ⟨setReg reg t { e with active := !e.active }, true,
            [⟨toggledMsg t, colGreen⟩]⟩
        else ⟨reg, false, [⟨mismatchMsg, colRed⟩]⟩
  else if intent = iInteractAppend then
    match tid with
    | none => ⟨reg, false, [⟨mismatchMsg, colRed⟩]⟩
    | some t =>
      match lookupReg reg t with
      | none => ⟨reg, false, [⟨mismatchMsg, colRed⟩]⟩
      | some e =>
        if s2l "list_append" ∈ e.capabilities then
          ⟨setReg reg t { e with items := dataUpdateView e.items (some label) },
            true, [⟨loggedMsg t, colGreen⟩]⟩
        else ⟨reg, false, [⟨capListMsg t, colRed⟩]⟩
  else ⟨reg, false, [⟨mismatchMsg, colRed⟩]⟩

/-- `execute_intent`: the not-found guard of lines 208–209, then the body.
`uuid` is the string form of the `uuid.uuid4()` value drawn for this call. -/
def executeIntent (reg : Registry) (intent : List Char) (tid : Option (List Char))
    (label raw uuid : List Char) : ExecResult :=
  match tid with
  | some t =>
    match lookupReg reg t with
    | none => ⟨reg, false, [⟨notFoundMsg t, colRed⟩]⟩
    | some _ => executeBody reg intent tid label raw uuid
  | none => executeBody reg intent tid label raw uuid

/-! ## Command pipeline (`process_intent`) -/

/-- Lines 168–205: strip, blank-line early return, lower-case, id
extraction, classification, label extraction, execution.  The returned
events are the `sys_log` result records (the spec's per-command log
events); the verbatim `Human:` echo is presentation only. -/
def processIntent (reg : Registry) (input uuid : List Char) :
    Registry × List LogEvent :=
  let rawText := pyStrip input
  if rawText.isEmpty then (reg, [])
  else
    let text := rawText.map toLowerC
    let tid := searchId text
    let intent := classifyIntent text tid
    let label := extractLabel rawText
    let r := executeIntent reg intent tid label text uuid
    (r.registry, r.logs)

/-! ## Spec-side definitions

These follow the specification's wording, to be compared with the
definitions transcribed from the source. -/

/-- The spec's "first single- or double-quoted substring": the text after
the first quote character up to the next quote character, requiring that
a closing quote exists.  (No newline provision: the spec's input is one
line.) -/
def specFirstQuoted : List Char → Option (List Char)
  | [] => none
  | c :: rest =>
    if isQuote c then
      if rest.any isQuote then some (rest.takeWhile (fun x => !isQuote x)) else none
    else specFirstQuoted rest

/-- The spec's "text following one of the connective words": some
whitespace-delimited token of the text is exactly one of the five
connective words (case-insensitive). -/
def specHasConnWord (raw : List Char) : Bool :=
  (pySplit raw).any (fun w => connWords.contains (w.map toLowerC))

/-- The id pattern as a full-string match: `node-` plus exactly four
lowercase hex characters. -/
def isIdString (l : List Char) : Bool :=
  match matchIdAt l with
  | some m => m = l
  | none => false

/-- The most recent `n` elements of a list, in order. -/
def lastN (n : Nat) (l : List α) : List α := l.drop (l.length - n)

/-- A sequence of append interactions against a fresh `DataView`'s empty
item list (`DataViewElement.update_view` with each label in turn). -/
def appendFold (ls : List (List Char)) : List (List Char) :=
  ls.foldl (fun items s => dataUpdateView items (some s)) []

/-! ## Concrete fixtures for closed statements -/

/-- Two well-formed `uuid4` strings agreeing on their first four characters. -/
def uuidA : List Char := s2l "ab12cd34-5e6f-4a7b-8c9d-0e1f2a3b4c5d"
def uuidB : List Char := s2l "ab12ffff-0000-4111-8222-333344445555"

def dataCd34 : Entity := mkData (s2l "node-cd34") (s2l "data_view") (s2l "Log")
def baseAb12 : Entity := mkBase (s2l "node-ab12") (s2l "primary_action") (s2l "Panel")
def metricAb12 : Entity := mkMetric (s2l "node-ab12") (s2l "metric_display") (s2l "CPU")
def statusEf56 : Entity := mkStatus (s2l "node-ef56") (s2l "status_indicator") (s2l "Srv")

/-! ## Registry lemmas -/

theorem lookupReg_setReg_self (reg : Registry) (k : List Char) (v : Entity) :
    lookupReg (setReg reg k v) k = some v := by
  induction reg with
  | nil => simp [setReg, lookupReg]
  | cons p rest ih =>
    obtain ⟨k0, v0⟩ := p
    by_cases h : k0 = k
    · simp [setReg, lookupReg, h]
    · simp [setReg, lookupReg, h, ih]

theorem lookupReg_setReg_ne (reg : Registry) (k : List Char) (v : Entity)
    (k' : List Char) (h : k' ≠ k) :
    lookupReg (setReg reg k v) k' = lookupReg reg k' := by
  induction reg with
  | nil =>
    simp only [setReg, lookupReg]
    rw [if_neg (fun hh : k = k' => h hh.symm)]
  | cons p rest ih =>
    obtain ⟨k0, v0⟩ := p
    by_cases h0 : k0 = k
    · subst h0
      simp only [setReg, if_pos rfl, lookupReg]
      rw [if_neg (fun hh : k0 = k' => h hh.symm),
        if_neg (fun hh : k0 = k' => h hh.symm)]
    · simp only [setReg, if_neg h0, lookupReg]
      by_cases hk : k0 = k'
      · simp [hk]
      · simp [hk, ih]

theorem regKeys_setReg_of_mem (reg : Registry) (k : List Char) (v : Entity)
    (h : lookupReg reg k ≠ none) :
    regKeys (setReg reg k v) = regKeys reg := by
  induction reg with
  | nil => simp [lookupReg] at h
  | cons p rest ih =>
    obtain ⟨k0, v0⟩ := p
    by_cases h0 : k0 = k
    · simp [setReg, regKeys, h0]
    · simp [lookupReg, h0] at h
      simp [setReg, regKeys, h0]
      exact ih h

theorem lookupReg_setReg_isSome (reg : Registry) (k : List Char) (v : Entity)
    (k' : List Char) (h : lookupReg reg k' ≠ none) :
    lookupReg (setReg reg k v) k' ≠ none := by
  by_cases hk : k' = k
  · subst hk
    simp [lookupReg_setReg_self]
  · rw [lookupReg_setReg_ne reg k v k' hk]
    exact h

/-! ## Window (`items[-limit:]`) lemmas -/

theorem lastN_of_length_le {l : List α} {n : Nat} (h : l.length ≤ n) :
    lastN n l = l := by
  simp [lastN, Nat.sub_eq_zero_of_le h]

theorem lastN_length_le (n : Nat) (l : List α) : (lastN n l).length ≤ n := by
  simp [lastN]
  omega

theorem dataUpdateView_some (items : List (List Char)) (s : List Char) :
    dataUpdateView items (some s)
      = if s.isEmpty then lastN maxDataItems items
        else lastN maxDataItems (items ++ [s]) := by
  by_cases hs : s.isEmpty
  · by_cases hl : items.length > maxDataItems
    · simp [dataUpdateView, hs, hl, lastN]
    · simp [dataUpdateView, hs, hl,
        lastN_of_length_le (l := items) (n := maxDataItems) (Nat.le_of_not_lt hl)]
  · by_cases hl : (items ++ [s]).length > maxDataItems
    · simp only [List.length_append, List.length_cons, List.length_nil] at hl
      simp [dataUpdateView, hs, hl, lastN]
    · simp only [List.length_append, List.length_cons, List.length_nil] at hl
      simp [dataUpdateView, hs, hl,
        lastN_of_length_le (l := items ++ [s]) (n := maxDataItems)
          (by simp; omega)]

theorem lastN_append_lastN (n : Nat) (xs ys : List α) :
    lastN n (lastN n xs ++ ys) = lastN n (xs ++ ys) := by
  simp only [lastN, List.length_append, List.length_drop]
  rw [List.drop_append_eq_append_drop, List.drop_append_eq_append_drop]
  congr 1
  · rw [List.drop_drop]
    congr 1
    omega
  · congr 1
    simp [List.length_drop]
    omega

theorem appendFold_from (ls : List (List Char)) (acc : List (List Char)) :
    List.foldl (fun items s => dataUpdateView items (some s))
        (lastN maxDataItems acc) ls
      = lastN maxDataItems (acc ++ ls.filter (fun s => !s.isEmpty)) := by
  induction ls generalizing acc with
  | nil => simp
  | cons s ls ih =>
    rw [List.foldl_cons, dataUpdateView_some]
    by_cases hs : s.isEmpty
    · rw [if_pos hs,
        lastN_of_length_le (lastN_length_le maxDataItems acc), ih acc]
      simp [List.filter, hs]
    · rw [if_neg hs, lastN_append_lastN, ih (acc ++ [s])]
      simp [List.filter, hs]

/-! ## Executor structure lemmas -/

theorem executeBody_logs_length (reg : Registry) (intent : List Char)
    (tid : Option (List Char)) (label raw uuid : List Char) :
    (executeBody reg intent tid label raw uuid).logs.length = 1 := by
  unfold executeBody
  repeat' split
  all_goals rfl

theorem executeIntent_logs_length (reg : Registry) (intent : List Char)
    (tid : Option (List Char)) (label raw uuid : List Char) :
    (executeIntent reg intent tid label raw uuid).logs.length = 1 := by
  unfold executeIntent
  repeat' split
  all_goals first
    | rfl
    | apply executeBody_logs_length

theorem executeBody_registry_shape (reg : Registry) (intent : List Char)
    (tid : Option (List Char)) (label raw uuid : List Char) :
    (executeBody reg intent tid label raw uuid).registry = reg ∨
    ∃ k e2, (executeBody reg intent tid label raw uuid).registry = setReg reg k e2 := by
  unfold executeBody
  repeat' split
  all_goals first
    | exact Or.inl rfl
    | exact Or.inr ⟨_, _, rfl⟩

theorem executeBody_registry_interact (reg : Registry) (intent : List Char)
    (tid : Option (List Char)) (label raw uuid : List Char)
    (h : isPre createPre intent = false) :
    (executeBody reg intent tid label raw uuid).registry = reg ∨
    ∃ t e e2, tid = some t ∧ lookupReg reg t = some e ∧
      (executeBody reg intent tid label raw uuid).registry = setReg reg t e2 := by
  unfold executeBody
  rw [h]
  repeat' split
  all_goals first
    | exact Or.inl rfl
    | simp_all

theorem executeIntent_none (reg : Registry) (intent label raw uuid : List Char) :
    executeIntent reg intent none label raw uuid
      = executeBody reg intent none label raw uuid := rfl

theorem executeIntent_some_found (reg : Registry) (intent t label raw uuid : List Char)
    (e : Entity) (he : lookupReg reg t = some e) :
    executeIntent reg intent (some t) label raw uuid
      = executeBody reg intent (some t) label raw uuid := by
  simp [executeIntent, he]

theorem executeIntent_some_missing (reg : Registry) (intent t label raw uuid : List Char)
    (he : lookupReg reg t = none) :
    executeIntent reg intent (some t) label raw uuid
      = ⟨reg, false, [⟨notFoundMsg t, colRed⟩]⟩ := by
  simp [executeIntent, he]

/-! ## Quote-scanner lemmas (engine model versus spec reading) -/

theorem headD_eq_head? (l : List α) (d : α) : l.headD d = (l.head?).getD d := by
  cases l <;> rfl

theorem quoteGroup_no_newline (l : List Char) (hnl : '\n' ∉ l) :
    quoteGroup l
      = if l.any isQuote then some (l.takeWhile (fun x => !isQuote x)) else none := by
  induction l with
  | nil => rfl
  | cons c rest ih =>
    by_cases hq : isQuote c
    · simp [quoteGroup, hq, List.any_cons, List.takeWhile_cons, hq]
    · have hc : c ≠ '\n' := fun hh => hnl (hh ▸ List.mem_cons_self c rest)
      have hrest : '\n' ∉ rest := fun hh => hnl (List.mem_cons_of_mem c hh)
      by_cases ha : rest.any isQuote
      · simp [quoteGroup, hq, hc, ih hrest, List.any_cons, ha, List.takeWhile_cons]
      · simp [quoteGroup, hq, hc, ih hrest, List.any_cons, ha]

theorem findallQuotedAux0_no_quote (l : List Char) (h : l.any isQuote = false) :
    findallQuotedAux 0 l = [] := by
  induction l with
  | nil => rfl
  | cons c rest ih =>
    simp only [List.any_cons, Bool.or_eq_false_iff] at h
    simp [findallQuotedAux, h.1, ih h.2]

theorem findall_head_spec (l : List Char) (hnl : '\n' ∉ l) :
    (findallQuoted l).head? = specFirstQuoted l := by
  unfold findallQuoted
  induction l with
  | nil => rfl
  | cons c rest ih =>
    have hrest : '\n' ∉ rest := fun hh => hnl (List.mem_cons_of_mem c hh)
    by_cases hq : isQuote c
    · rw [specFirstQuoted]
      by_cases ha : rest.any isQuote
      · simp only [findallQuotedAux, hq, if_pos rfl,
          quoteGroup_no_newline rest hrest, ha, if_pos rfl]
        simp [hq, ha]
      · simp only [findallQuotedAux, hq, if_pos rfl,
          quoteGroup_no_newline rest hrest, ha]
        simp only [Bool.false_eq_true, if_false]
        rw [findallQuotedAux0_no_quote rest (by simpa using ha)]
        simp [hq, ha]
    · rw [specFirstQuoted]
      simp only [findallQuotedAux, hq, Bool.false_eq_true, if_false]
      exact ih hrest

/-! ## Claim theorems -/

/-- C8: intent classification is a pure function of the normalized text and
the presence (not the value) of an extracted target id: two classifications
that agree on the text and on target-id presence agree on the intent. -/
theorem C8_classify_pure (text : List Char) (o1 o2 : Option (List Char))
    (h : o1.isSome = o2.isSome) :
    classifyIntent text o1 = classifyIntent text o2 := by
  cases o1 <;> cases o2 <;> first | rfl | simp at h

theorem C8_classify_pure_w :
    classifyIntent (s2l "toggle node-ab12") (some (s2l "node-ab12"))
      = classifyIntent (s2l "toggle node-ab12") (some (s2l "node-ffff")) :=
  C8_classify_pure (s2l "toggle node-ab12") (some (s2l "node-ab12"))
    (some (s2l "node-ffff")) rfl

/-- C10: a blank (empty or all-whitespace) input line returns before any
processing: no log event is emitted and the registry is unchanged, while
every non-blank command produces exactly one log event. -/
theorem C10_blank_noop (reg : Registry) (input uuid : List Char) :
    (pyStrip input = [] → processIntent reg input uuid = (reg, [])) ∧
    (pyStrip input ≠ [] → (processIntent reg input uuid).2.length = 1) := by
  constructor
  · intro h
    simp [processIntent, h]
  · intro h
    have hne : (pyStrip input).isEmpty = false := by
      cases hs : pyStrip input with
      | nil => exact absurd hs h
      | cons a l => rfl
    simp only [processIntent, hne, Bool.false_eq_true, if_false]
    exact executeIntent_logs_length _ _ _ _ _ _

theorem C10_blank_noop_w :
    processIntent [] (s2l " \t ") (s2l "ab12cd34-5e6f-4a7b-8c9d-0e1f2a3b4c5d") = ([], []) ∧
    (processIntent [] (s2l "make panel") (s2l "ab12cd34-5e6f-4a7b-8c9d-0e1f2a3b4c5d")).2.length = 1 :=
  ⟨(C10_blank_noop [] (s2l " \t ") (s2l "ab12cd34-5e6f-4a7b-8c9d-0e1f2a3b4c5d")).1 (by decide),
   (C10_blank_noop [] (s2l "make panel") (s2l "ab12cd34-5e6f-4a7b-8c9d-0e1f2a3b4c5d")).2 (by decide)⟩


/-- C3, counterexample: the command `add to node-cd34` reaches the append
branch with extracted label `""`; the interaction is reported successful,
yet `DataViewElement.update_view` silently drops falsy items, so the item
list stays `[]` instead of equalling the appended-value sequence `[""]`. -/
theorem C3_append_cex :
    extractLabel (s2l "add to node-cd34") = [] ∧
    processIntent [(s2l "node-cd34", dataCd34)] (s2l "add to node-cd34") uuidA
      = ([(s2l "node-cd34", dataCd34)], [⟨loggedMsg (s2l "node-cd34"), colGreen⟩]) ∧
    dataCd34.items = [] ∧
    lastN maxDataItems [([] : List Char)] = [([] : List Char)] ∧
    ([] : List (List Char)) ≠ [([] : List Char)] := by
  refine ⟨by decide, by decide, by decide, by decide, by decide⟩

/-- C3, amended: across any sequence of append interactions on a fresh
`DataView`, the item list always equals the most recent at-most-50
*non-empty* appended values in append order (appends of the empty string
are ignored), and its length never exceeds 50. -/
theorem C3_append_window (ls : List (List Char)) :
    appendFold ls = lastN maxDataItems (ls.filter (fun s => !s.isEmpty)) ∧
    (appendFold ls).length ≤ maxDataItems := by
  have h := appendFold_from ls []
  simp only [List.nil_append] at h
  have h0 : lastN maxDataItems ([] : List (List Char)) = [] := rfl
  rw [h0] at h
  unfold appendFold
  refine ⟨h, ?_⟩
  rw [h]
  exact lastN_length_le _ _

theorem executeBody_numeric_eq (reg : Registry) (t label raw uuid : List Char)
    (e : Entity) (he : lookupReg reg t = some e) :
    executeBody reg iInteractNumeric (some t) label raw uuid
      = if s2l "numeric_update" ∈ e.capabilities then
          match firstIntToken (replaceAll raw t) with
          | some n =>
            ⟨setReg reg t (metricUpd e (n : Int)), true,
              [⟨setValueMsg t (metricUpd e (n : Int)).value, colGreen⟩]⟩
          | none => ⟨reg, false, [⟨mismatchMsg, colRed⟩]⟩
        else ⟨reg, false, [⟨capMetricMsg t, colRed⟩]⟩ := by
  have h1 : isPre createPre iInteractNumeric = false := by decide
  simp only [executeBody, h1, Bool.false_eq_true, if_false, if_pos rfl, he]
  rfl

theorem executeBody_toggle_eq (reg : Registry) (t label raw uuid : List Char)
    (e : Entity) (he : lookupReg reg t = some e) :
    executeBody reg iInteractToggle (some t) label raw uuid
      = if s2l "toggle_status" ∈ e.capabilities then
          ⟨setReg reg t { e with active := !e.active }, true,
            [⟨toggledMsg t, colGreen⟩]⟩
        else ⟨reg, false, [⟨mismatchMsg, colRed⟩]⟩ := by
  have h1 : isPre createPre iInteractToggle = false := by decide
  have h2 : ¬(iInteractToggle = iInteractNumeric) := by decide
  simp only [executeBody, h1, Bool.false_eq_true, if_false, if_neg h2, if_pos rfl, he,
    eq_self_iff_true, if_true]

theorem executeBody_append_eq (reg : Registry) (t label raw uuid : List Char)
    (e : Entity) (he : lookupReg reg t = some e) :
    executeBody reg iInteractAppend (some t) label raw uuid
      = if s2l "list_append" ∈ e.capabilities then
          ⟨setReg reg t { e with items := dataUpdateView e.items (some label) },
            true, [⟨loggedMsg t, colGreen⟩]⟩
        else ⟨reg, false, [⟨capListMsg t, colRed⟩]⟩ := by
  have h1 : isPre createPre iInteractAppend = false := by decide
  have h2 : ¬(iInteractAppend = iInteractNumeric) := by decide
  have h3 : ¬(iInteractAppend = iInteractToggle) := by decide
  simp only [executeBody, h1, Bool.false_eq_true, if_false, if_neg h2, if_neg h3,
    if_pos rfl, he, eq_self_iff_true, if_true]

theorem executeBody_unknown_eq (reg : Registry) (tid : Option (List Char))
    (label raw uuid : List Char) :
    executeBody reg iUnknown tid label raw uuid
      = ⟨reg, false, [⟨mismatchMsg, colRed⟩]⟩ := by
  have h1 : isPre createPre iUnknown = false := by decide
  have h2 : ¬(iUnknown = iInteractNumeric) := by decide
  have h3 : ¬(iUnknown = iInteractToggle) := by decide
  have h4 : ¬(iUnknown = iInteractAppend) := by decide
  simp only [executeBody, h1, Bool.false_eq_true, if_false, if_neg h2, if_neg h3,
    if_neg h4]

/-- C2: a numeric interaction on a resolvable target with the
`numeric_update` capability extracts the first integer token from the text
with the target id substring removed beforehand; whatever the magnitude of
the extracted value (and for every integer input to the view update,
negative values included), the stored `value` is clamped into
`[metric_range_min, metric_range_max] = [0, 100]`; when no integer token
exists, nothing is mutated. -/
theorem C2_numeric_clamp (reg : Registry) (t : List Char) (e : Entity)
    (label raw uuid : List Char)
    (he : lookupReg reg t = some e)
    (hc : s2l "numeric_update" ∈ e.capabilities) :
    (∀ v : Int, metricRangeMin ≤ (metricUpd e v).value ∧
        (metricUpd e v).value ≤ metricRangeMax) ∧
    (∀ n : Nat, firstIntToken (replaceAll raw t) = some n →
      executeIntent reg iInteractNumeric (some t) label raw uuid
        = ⟨setReg reg t (metricUpd e (n : Int)), true,
            [⟨setValueMsg t (metricUpd e (n : Int)).value, colGreen⟩]⟩) ∧
    (firstIntToken (replaceAll raw t) = none →
      executeIntent reg iInteractNumeric (some t) label raw uuid
        = ⟨reg, false, [⟨mismatchMsg, colRed⟩]⟩) := by
  refine ⟨?_, ?_, ?_⟩
  · intro v
    simp only [metricUpd, metricRangeMin, metricRangeMax]
    exact ⟨le_max_left _ _, max_le (by norm_num) (min_le_left _ _)⟩
  · intro n hn
    rw [executeIntent_some_found reg iInteractNumeric t label raw uuid e he,
      executeBody_numeric_eq reg t label raw uuid e he, if_pos hc, hn]
  · intro hn
    rw [executeIntent_some_found reg iInteractNumeric t label raw uuid e he,
      executeBody_numeric_eq reg t label raw uuid e he, if_pos hc, hn]

theorem C2_numeric_clamp_w :
    executeIntent [(s2l "node-ab12", metricAb12)] iInteractNumeric
        (some (s2l "node-ab12")) (s2l "150") (s2l "set node-ab12 to 150") uuidA
      = ⟨setReg [(s2l "node-ab12", metricAb12)] (s2l "node-ab12")
            (metricUpd metricAb12 (150 : Int)), true,
          [⟨setValueMsg (s2l "node-ab12") (metricUpd metricAb12 (150 : Int)).value,
            colGreen⟩]⟩ ∧
    metricRangeMin ≤ (metricUpd metricAb12 (150 : Int)).value ∧
    (metricUpd metricAb12 (150 : Int)).value ≤ metricRangeMax :=
  ⟨((C2_numeric_clamp [(s2l "node-ab12", metricAb12)] (s2l "node-ab12") metricAb12
      (s2l "150") (s2l "set node-ab12 to 150") uuidA (by decide) (by decide)).2.1
      150 (by decide)),
   (C2_numeric_clamp [(s2l "node-ab12", metricAb12)] (s2l "node-ab12") metricAb12
      (s2l "150") (s2l "set node-ab12 to 150") uuidA (by decide) (by decide)).1 150⟩

/-- C4, counterexample: `create node-ab12` on an empty registry is classified
as a creation intent, yet execution fails with a not-found report and
creates nothing, because the executor's target-resolution guard runs before
the creation branch. -/
theorem C4_create_cex :
    searchId (s2l "create node-ab12") = some (s2l "node-ab12") ∧
    classifyIntent (s2l "create node-ab12") (some (s2l "node-ab12")) = iCreateBase ∧
    executeIntent [] iCreateBase (some (s2l "node-ab12"))
        (extractLabel (s2l "create node-ab12")) (s2l "create node-ab12") uuidA
      = ⟨[], false, [⟨notFoundMsg (s2l "node-ab12"), colRed⟩]⟩ := by
  refine ⟨by decide, by decide, by decide⟩

/-- C4, amended: a creation intent whose extracted target id (if any)
resolves in the registry — in particular, whenever no id was extracted —
always succeeds: the new entity carries the generated id, its label clamped
to the maximum length, and the success record carries its id and role. -/
theorem C4_create_amended (reg : Registry) (intent : List Char)
    (tid : Option (List Char)) (label raw uuid : List Char)
    (hcr : intent = iCreateBase ∨ intent = iCreateMetric ∨
      intent = iCreateData ∨ intent = iCreateStatus)
    (hres : tid = none ∨ ∃ t e, tid = some t ∧ lookupReg reg t = some e) :
    ∃ el : Entity,
      executeIntent reg intent tid label raw uuid
        = ⟨setReg reg (s2l "node-" ++ uuid.take 4) el, true,
            [⟨createdMsg el.role (s2l "node-" ++ uuid.take 4), colGreen⟩]⟩ ∧
      el.eid = s2l "node-" ++ uuid.take 4 ∧
      el.title = label.take maxLabelLength := by
  have hbody : ∃ el : Entity,
      executeBody reg intent tid label raw uuid
        = ⟨setReg reg (s2l "node-" ++ uuid.take 4) el, true,
            [⟨createdMsg el.role (s2l "node-" ++ uuid.take 4), colGreen⟩]⟩ ∧
      el.eid = s2l "node-" ++ uuid.take 4 ∧
      el.title = label.take maxLabelLength := by
    rcases hcr with rfl | rfl | rfl | rfl
    · exact ⟨mkBase (s2l "node-" ++ uuid.take 4) (s2l "primary_action") label,
        rfl, rfl, rfl⟩
    · exact ⟨mkMetric (s2l "node-" ++ uuid.take 4) (s2l "metric_display") label,
        rfl, rfl, rfl⟩
    · exact ⟨mkData (s2l "node-" ++ uuid.take 4) (s2l "data_view") label,
        rfl, rfl, rfl⟩
    · exact ⟨mkStatus (s2l "node-" ++ uuid.take 4) (s2l "status_indicator") label,
        rfl, rfl, rfl⟩
  rcases hres with rfl | ⟨t, e, rfl, he⟩
  · rw [executeIntent_none]
    exact hbody
  · rw [executeIntent_some_found reg intent t label raw uuid e he]
    exact hbody

theorem C4_create_amended_w :
    ∃ el : Entity,
      executeIntent [] iCreateMetric none (s2l "CPU Load")
          (s2l "create a new progress bar") uuidA
        = ⟨setReg [] (s2l "node-" ++ uuidA.take 4) el, true,
            [⟨createdMsg el.role (s2l "node-" ++ uuidA.take 4), colGreen⟩]⟩ ∧
      el.eid = s2l "node-" ++ uuidA.take 4 ∧
      el.title = (s2l "CPU Load").take maxLabelLength :=
  C4_create_amended [] iCreateMetric none (s2l "CPU Load")
    (s2l "create a new progress bar") uuidA (Or.inr (Or.inl rfl)) (Or.inl rfl)

/-- C5, counterexample: a command classified as `unknown` whose text carries
an extracted id absent from the registry (`zzz node-ab12` on an empty
registry) is reported as a node-not-found failure, not as the generic
semantic mismatch the claim requires for every Unknown command. -/
theorem C5_unknown_cex :
    classifyIntent (s2l "zzz node-ab12") (some (s2l "node-ab12")) = iUnknown ∧
    executeIntent [] iUnknown (some (s2l "node-ab12")) []
        (s2l "zzz node-ab12") uuidA
      = ⟨[], false, [⟨notFoundMsg (s2l "node-ab12"), colRed⟩]⟩ ∧
    notFoundMsg (s2l "node-ab12") ≠ mismatchMsg := by
  refine ⟨by decide, by decide, by decide⟩

/-- C5, amended: an Unknown command never mutates the registry and always
fails; it is reported as the generic semantic mismatch when no target id
was extracted or the extracted id resolves, and as a node-not-found error
when the extracted id is absent from the registry. -/
theorem C5_unknown_amended (reg : Registry) (tid : Option (List Char))
    (label raw uuid : List Char) :
    (executeIntent reg iUnknown tid label raw uuid).registry = reg ∧
    (executeIntent reg iUnknown tid label raw uuid).success = false ∧
    ((∀ t, tid = some t → lookupReg reg t ≠ none) →
      (executeIntent reg iUnknown tid label raw uuid).logs
        = [⟨mismatchMsg, colRed⟩]) ∧
    (∀ t, tid = some t → lookupReg reg t = none →
      (executeIntent reg iUnknown tid label raw uuid).logs
        = [⟨notFoundMsg t, colRed⟩]) := by
  cases tid with
  | none =>
    rw [executeIntent_none, executeBody_unknown_eq]
    exact ⟨rfl, rfl, fun _ => rfl, fun t ht => by cases ht⟩
  | some t =>
    cases he : lookupReg reg t with
    | none =>
      rw [executeIntent_some_missing reg iUnknown t label raw uuid he]
      refine ⟨rfl, rfl, fun h => absurd he (h t rfl), fun t' ht' _ => ?_⟩
      cases ht'
      rfl
    | some e =>
      rw [executeIntent_some_found reg iUnknown t label raw uuid e he,
        executeBody_unknown_eq]
      refine ⟨rfl, rfl, fun _ => rfl, fun t' ht' hnone => ?_⟩
      cases ht'
      rw [he] at hnone
      cases hnone

theorem C5_unknown_amended_w :
    (executeIntent [] iUnknown none [] (s2l "zzz") uuidA).registry = [] ∧
    (executeIntent [] iUnknown none [] (s2l "zzz") uuidA).logs
      = [⟨mismatchMsg, colRed⟩] :=
  ⟨(C5_unknown_amended [] none [] (s2l "zzz") uuidA).1,
   (C5_unknown_amended [] none [] (s2l "zzz") uuidA).2.2.1
     (fun t ht => by cases ht)⟩

/-- C6, counterexample: toggling a resolvable Base entity, which lacks
`toggle_status`, is reported with the generic `Interpreter: Semantic
Mismatch.` message — the toggle branch has no capability-specific report —
rather than with a capability-mismatch message such as the `Capability
Error:` reports of the numeric and append branches. -/
theorem C6_toggle_cex :
    (s2l "toggle_status" ∈ baseAb12.capabilities → False) ∧
    executeIntent [(s2l "node-ab12", baseAb12)] iInteractToggle
        (some (s2l "node-ab12")) [] (s2l "toggle node-ab12") uuidA
      = ⟨[(s2l "node-ab12", baseAb12)], false, [⟨mismatchMsg, colRed⟩]⟩ ∧
    isPre (s2l "Capability Error:") mismatchMsg = false := by
  refine ⟨by decide, by decide, by decide⟩

/-- C6, amended: toggling a resolvable target that lacks `toggle_status`
fails with the generic semantic-mismatch report (not a capability-specific
one) and mutates nothing; when the target carries `toggle_status`, the
interaction flips `active` and always succeeds. -/
theorem C6_toggle_amended (reg : Registry) (t : List Char) (e : Entity)
    (label raw uuid : List Char) (he : lookupReg reg t = some e) :
    (s2l "toggle_status" ∈ e.capabilities →
      executeIntent reg iInteractToggle (some t) label raw uuid
        = ⟨setReg reg t { e with active := !e.active }, true,
            [⟨toggledMsg t, colGreen⟩]⟩) ∧
    (s2l "toggle_status" ∉ e.capabilities →
      executeIntent reg iInteractToggle (some t) label raw uuid
        = ⟨reg, false, [⟨mismatchMsg, colRed⟩]⟩) := by
  rw [executeIntent_some_found reg iInteractToggle t label raw uuid e he,
    executeBody_toggle_eq reg t label raw uuid e he]
  constructor
  · intro hc
    rw [if_pos hc]
  · intro hc
    rw [if_neg hc]

theorem C6_toggle_amended_w :
    executeIntent [(s2l "node-ef56", statusEf56)] iInteractToggle
        (some (s2l "node-ef56")) [] (s2l "toggle node-ef56") uuidA
      = ⟨setReg [(s2l "node-ef56", statusEf56)] (s2l "node-ef56")
            { statusEf56 with active := !statusEf56.active }, true,
          [⟨toggledMsg (s2l "node-ef56"), colGreen⟩]⟩ :=
  (C6_toggle_amended [(s2l "node-ef56", statusEf56)] (s2l "node-ef56") statusEf56
    [] (s2l "toggle node-ef56") uuidA (by decide)).1 (by decide)

/-- C9: interaction intents and the Unknown intent leave the registry's key
set unchanged and touch no entity other than the resolved target; no intent
whatsoever removes an existing entry; and every intent that is not a
creation leaves the key set unchanged, so only creations insert. -/
theorem C9_frame (reg : Registry) (intent : List Char) (tid : Option (List Char))
    (label raw uuid : List Char) :
    ((intent = iInteractToggle ∨ intent = iInteractAppend ∨
        intent = iInteractNumeric ∨ intent = iUnknown) →
      regKeys (executeIntent reg intent tid label raw uuid).registry = regKeys reg ∧
      ∀ k, tid ≠ some k →
        lookupReg (executeIntent reg intent tid label raw uuid).registry k
          = lookupReg reg k) ∧
    (∀ k, lookupReg reg k ≠ none →
      lookupReg (executeIntent reg intent tid label raw uuid).registry k ≠ none) ∧
    (isPre createPre intent = false →
      regKeys (executeIntent reg intent tid label raw uuid).registry
        = regKeys reg) := by
  have factA : isPre createPre intent = false →
      regKeys (executeIntent reg intent tid label raw uuid).registry = regKeys reg ∧
      ∀ k, tid ≠ some k →
        lookupReg (executeIntent reg intent tid label raw uuid).registry k
          = lookupReg reg k := by
    intro h
    cases tid with
    | none =>
      rw [executeIntent_none]
      rcases executeBody_registry_interact reg intent none label raw uuid h with
        h1 | ⟨t, e, e2, ht, _, _⟩
      · rw [h1]
        exact ⟨rfl, fun k _ => rfl⟩
      · cases ht
    | some t =>
      cases he : lookupReg reg t with
      | none =>
        rw [executeIntent_some_missing reg intent t label raw uuid he]
        exact ⟨rfl, fun k _ => rfl⟩
      | some e =>
        rw [executeIntent_some_found reg intent t label raw uuid e he]
        rcases executeBody_registry_interact reg intent (some t) label raw uuid h with
          h1 | ⟨t', e', e2, ht, hle, hbody⟩
        · rw [h1]
          exact ⟨rfl, fun k _ => rfl⟩
        · injection ht with ht2
          subst ht2
          rw [hbody]
          constructor
          · exact regKeys_setReg_of_mem reg t e2 (by rw [hle]; simp)
          · intro k hk
            have hkt : k ≠ t := fun hh => hk (by rw [hh])
            exact lookupReg_setReg_ne reg t e2 k hkt
  have factB : ∀ k, lookupReg reg k ≠ none →
      lookupReg (executeIntent reg intent tid label raw uuid).registry k ≠ none := by
    intro k hk
    have hshape : (executeIntent reg intent tid label raw uuid).registry = reg ∨
        ∃ k2 e2, (executeIntent reg intent tid label raw uuid).registry
          = setReg reg k2 e2 := by
      cases tid with
      | none =>
        rw [executeIntent_none]
        exact executeBody_registry_shape reg intent none label raw uuid
      | some t =>
        cases he : lookupReg reg t with
        | none =>
          rw [executeIntent_some_missing reg intent t label raw uuid he]
          exact Or.inl rfl
        | some e =>
          rw [executeIntent_some_found reg intent t label raw uuid e he]
          exact executeBody_registry_shape reg intent (some t) label raw uuid
    rcases hshape with h1 | ⟨k2, e2, h1⟩
    · rw [h1]
      exact hk
    · rw [h1]
      exact lookupReg_setReg_isSome reg k2 e2 k hk
  refine ⟨fun hI => factA ?_, factB, fun h => (factA h).1⟩
  rcases hI with rfl | rfl | rfl | rfl <;> decide

theorem C9_frame_w :
    regKeys (executeIntent [(s2l "node-ef56", statusEf56)] iInteractToggle
        (some (s2l "node-ef56")) [] (s2l "toggle node-ef56") uuidA).registry
      = regKeys [(s2l "node-ef56", statusEf56)] ∧
    lookupReg (executeIntent [(s2l "node-ef56", statusEf56)] iInteractToggle
        (some (s2l "node-ef56")) [] (s2l "toggle node-ef56") uuidA).registry
      (s2l "node-ef56") ≠ none :=
  ⟨((C9_frame [(s2l "node-ef56", statusEf56)] iInteractToggle
      (some (s2l "node-ef56")) [] (s2l "toggle node-ef56") uuidA).1 (Or.inl rfl)).1,
   (C9_frame [(s2l "node-ef56", statusEf56)] iInteractToggle
      (some (s2l "node-ef56")) [] (s2l "toggle node-ef56") uuidA).2.1
     (s2l "node-ef56") (by decide)⟩

/-- C7, counterexample: for `make auto mode` there is no quoted substring
and no connective *word*, so the claim's rule (3) demands the capitalized
last token `Mode`; the source regex instead matches the connective `to`
inside the word `auto` (no word boundary) and yields `mode`. -/
theorem C7_label_cex :
    findallQuoted (s2l "make auto mode") = [] ∧
    specHasConnWord (s2l "make auto mode") = false ∧
    pyCapitalize (lastToken (s2l "make auto mode")) = s2l "Mode" ∧
    extractLabel (s2l "make auto mode") = s2l "mode" ∧
    s2l "mode" ≠ s2l "Mode" := by
  refine ⟨by decide, by decide, by decide, by decide, by decide⟩

/-- C7, amended: for single-line input, the label follows this priority
order: (1) the first substring enclosed between two quote characters
(single or double in any combination), verbatim, when it is non-empty;
(2) otherwise, the text after the leftmost occurrence of one of the
substrings `called`/`named`/`item`/`for`/`to` (case-insensitive, also
inside longer words) that is followed by whitespace, trimmed; (3)
otherwise, the last whitespace-delimited token, first character
upper-cased and the rest lower-cased; in all cases id-pattern substrings
are stripped and surrounding whitespace trimmed. -/
theorem C7_label_amended (raw : List Char) (hnl : '\n' ∉ raw) :
    (∀ q, specFirstQuoted raw = some q → q ≠ [] →
      extractLabel raw = pyStrip (subIdAll q)) ∧
    ((specFirstQuoted raw).getD [] = [] →
      (∀ g, connSearch raw = some g →
        extractLabel raw = pyStrip (subIdAll (pyStrip g))) ∧
      (connSearch raw = none →
        extractLabel raw = pyStrip (subIdAll (pyCapitalize (lastToken raw))))) := by
  have hd : (findallQuoted raw).headD [] = (specFirstQuoted raw).getD [] := by
    rw [headD_eq_head?, findall_head_spec raw hnl]
  have hdef : extractLabel raw
      = pyStrip (subIdAll (if (findallQuoted raw).headD [] = [] then
          (match connSearch raw with
           | some g => pyStrip g
           | none => pyCapitalize (lastToken raw))
          else (findallQuoted raw).headD [])) := rfl
  constructor
  · intro q hq hne
    rw [hdef, hd, hq, Option.getD_some, if_neg hne]
  · intro hnil
    constructor
    · intro g hg
      rw [hdef, hd, hnil, if_pos rfl, hg]
    · intro hg
      rw [hdef, hd, hnil, if_pos rfl, hg]

theorem C7_label_amended_w :
    extractLabel (s2l "add \x27CPU Load\x27 panel")
      = pyStrip (subIdAll (s2l "CPU Load")) :=
  (C7_label_amended (s2l "add \x27CPU Load\x27 panel") (by decide)).1
    (s2l "CPU Load") (by decide) (by decide)

/-- C1: the generated id `node-` + first four characters of a fresh
`uuid4` string does match the id pattern (the leading characters of a
`uuid4` string are lowercase hex), but uniqueness is never checked: two
draws agreeing on their first four characters — entirely possible since
only 4 of the 32 random hex digits are used — produce the *same* id, the
second creation is still reported successful, and the dictionary
assignment silently overwrites the first entity. -/
theorem C1_duplicate_id_overwrite :
    executeIntent [] iCreateBase none (s2l "Panel") (s2l "make panel") uuidA
      = ⟨[(s2l "node-ab12", baseAb12)], true,
          [⟨createdMsg (s2l "primary_action") (s2l "node-ab12"), colGreen⟩]⟩ ∧
    executeIntent [(s2l "node-ab12", baseAb12)] iCreateBase none (s2l "Panel")
        (s2l "make panel") uuidB
      = ⟨[(s2l "node-ab12", baseAb12)], true,
          [⟨createdMsg (s2l "primary_action") (s2l "node-ab12"), colGreen⟩]⟩ ∧
    uuidA ≠ uuidB ∧
    isIdString (s2l "node-ab12") = true := by
  refine ⟨by decide, by decide, by decide, by decide⟩
